import Mathlib

/-!
Shallow embedding of `sync_github_repo.py` and `sync_bitbucket_repo.py`
(repository `github_repo_sync`).

Strings are modelled as `List Char`.  The Python string operations the
scripts use — `s.replace(pat, repl)`, `pat in s`, `s.startswith(pat)` —
are embedded below with Python's semantics (left-to-right, non-overlapping
replacement of every occurrence).  Optional credentials (`token`, `user`)
are modelled as `List Char` where `[]` stands for "absent or empty", which
is exactly Python's truthiness test `if token:` used by both scripts.

The mirror reconciliation loops are embedded as total functions over an
explicit per-repository world: the on-disk mirror state (directory
present?, stored remote URL) plus the result of each external `git`
invocation (`ok`, non-zero exit, or executable not found).  The functions
return the per-repository activity (commands issued, exception raised,
resulting state) and how the batch ended, which is everything the scripts
observably do; printing is not modelled.
-/

/-- Python `pat in s` (contiguous substring test). -/
def pyIn (pat : List Char) : List Char → Bool
  | [] => pat.isEmpty
  | c :: rest => pat.isPrefixOf (c :: rest) || pyIn pat rest

/-- Fuelled worker for Python `s.replace(pat, repl)`: replaces every
non-overlapping occurrence of `pat`, scanning left to right.  Structural
recursion on the fuel keeps it kernel-reducible; `pyReplace` passes
`s.length` as fuel, which suffices whenever `pat ≠ []`. -/
def pyReplaceF (pat repl : List Char) : Nat → List Char → List Char
  | _, [] => []
  | 0, s => s
  | Nat.succ n, c :: rest =>
    if pat.isPrefixOf (c :: rest) then
      repl ++ pyReplaceF pat repl n ((c :: rest).drop pat.length)
    else
      c :: pyReplaceF pat repl n rest

/-- Python `s.replace(pat, repl)` for a non-empty pattern. -/
def pyReplace (s pat repl : List Char) : List Char :=
  pyReplaceF pat repl s.length s

/-- The literal `"https://"` both scripts match on. -/
def httpsP : List Char := "https://".toList

/-- `sync_github_repo.py` line 99:
`clone_url.replace("https://", f"https://{token}@")`, executed only when
the token is truthy (line 98). -/
def injectGithub (token url : List Char) : List Char :=
  if token.isEmpty then url
  else pyReplace url httpsP (httpsP ++ token ++ ['@'])

/-- `sync_bitbucket_repo.py` lines 129–132:
the replacement runs only when the URL starts with `https://` and both
`user` and `token` are truthy. -/
def injectBitbucket (user token url : List Char) : List Char :=
  if httpsP.isPrefixOf url then
    if !user.isEmpty && !token.isEmpty then
      pyReplace url httpsP (httpsP ++ user ++ [':'] ++ token ++ ['@'])
    else url
  else url

/-- A list is a Boolean prefix of itself followed by anything. -/
theorem isPrefixOf_self_append (l t : List Char) : l.isPrefixOf (l ++ t) = true := by
  induction l with
  | nil => simp
  | cons c cs ih => simp [List.isPrefixOf_cons₂, ih]

/-- The fuel of `pyReplaceF` is irrelevant once it covers the length of the
input, provided the pattern is non-empty. -/
theorem pyReplaceF_fuel (pat repl : List Char) (hp : 0 < pat.length) :
    ∀ n m s, s.length ≤ n → s.length ≤ m →
      pyReplaceF pat repl n s = pyReplaceF pat repl m s := by
  intro n
  induction n with
  | zero =>
    intro m s hn _
    have hs : s = [] := List.eq_nil_of_length_eq_zero (Nat.le_zero.mp hn)
    subst hs
    cases m <;> rfl
  | succ n ih =>
    intro m s hn hm
    cases s with
    | nil => cases m <;> rfl
    | cons c cs =>
      cases m with
      | zero => simp at hm
      | succ m' =>
        simp only [List.length_cons] at hn hm
        simp only [pyReplaceF]
        by_cases hpre : pat.isPrefixOf (c :: cs) = true
        · rw [if_pos hpre, if_pos hpre]
          congr 1
          have hd : ((c :: cs).drop pat.length).length = cs.length + 1 - pat.length := by
            simp [List.length_drop]
          apply ih
          · rw [hd]; omega
          · rw [hd]; omega
        · rw [if_neg hpre, if_neg hpre]
          rw [ih m' cs (by omega) (by omega)]

/-- If the pattern does not occur in `s`, replacement leaves `s` unchanged
(for any amount of fuel). -/
theorem pyReplaceF_not_pyIn (pat repl : List Char) :
    ∀ n s, pyIn pat s = false → pyReplaceF pat repl n s = s := by
  intro n
  induction n with
  | zero => intro s _; cases s <;> rfl
  | succ n ih =>
    intro s h
    cases s with
    | nil => rfl
    | cons c cs =>
      simp only [pyIn, Bool.or_eq_false_iff] at h
      simp only [pyReplaceF]
      rw [if_neg (by simp [h.1]), ih cs h.2]

/-- If the pattern does not occur in `s`, Python replacement is the
identity on `s`. -/
theorem pyReplace_not_pyIn (s pat repl : List Char) (h : pyIn pat s = false) :
    pyReplace s pat repl = s :=
  pyReplaceF_not_pyIn pat repl s.length s h

/-- Replacement on `pat ++ rest` rewrites the leading occurrence and
continues on `rest`. -/
theorem pyReplace_prepend (pat repl rest : List Char) (hp : 0 < pat.length) :
    pyReplace (pat ++ rest) pat repl = repl ++ pyReplace rest pat repl := by
  cases pat with
  | nil => simp at hp
  | cons p pt =>
    show pyReplaceF (p :: pt) repl ((p :: pt) ++ rest).length ((p :: pt) ++ rest) = _
    have hlen : ((p :: pt) ++ rest).length = (pt ++ rest).length + 1 := by simp
    rw [hlen]
    simp only [List.cons_append, pyReplaceF, List.append_eq]
    have hpre : (p :: pt).isPrefixOf (p :: (pt ++ rest)) = true := by
      have := isPrefixOf_self_append (p :: pt) rest
      rwa [List.cons_append] at this
    rw [if_pos hpre]
    congr 1
    have hdrop : (p :: (pt ++ rest)).drop (p :: pt).length = rest := by
      have := List.drop_left (p :: pt) rest
      rwa [List.cons_append] at this
    rw [hdrop]
    exact pyReplaceF_fuel (p :: pt) repl (by simp) _ _ rest (by simp) (Nat.le_refl _)

/-- On an `https://`-led URL whose tail contains no further `https://`,
the GitHub injector inserts `token@` right after the scheme. -/
theorem injectGithub_https (t rest : List Char) (ht : t ≠ [])
    (h : pyIn httpsP rest = false) :
    injectGithub t (httpsP ++ rest) = httpsP ++ (t ++ ('@' :: rest)) := by
  cases t with
  | nil => exact absurd rfl ht
  | cons a as =>
    unfold injectGithub
    simp only [List.isEmpty, if_false]
    rw [pyReplace_prepend httpsP _ rest (by decide),
        pyReplace_not_pyIn rest httpsP _ h]
    simp

/-- A URL in which `https://` does not occur at all is returned unchanged
by the GitHub injector, whatever the token. -/
theorem injectGithub_not_contains (t u : List Char) (h : pyIn httpsP u = false) :
    injectGithub t u = u := by
  unfold injectGithub
  by_cases ht : t.isEmpty
  · simp [ht]
  · simp only [ht, if_false]
    exact pyReplace_not_pyIn u httpsP _ h

/-- With the token absent (or empty) the GitHub injector is the identity. -/
theorem injectGithub_no_token (u : List Char) : injectGithub [] u = u := by
  simp [injectGithub, List.isEmpty]

/-- On an `https://`-led URL whose tail contains no further `https://`,
the Bitbucket injector inserts `user:token@` right after the scheme. -/
theorem injectBitbucket_https (u t rest : List Char) (hu : u ≠ []) (ht : t ≠ [])
    (h : pyIn httpsP rest = false) :
    injectBitbucket u t (httpsP ++ rest)
      = httpsP ++ (u ++ (':' :: (t ++ ('@' :: rest)))) := by
  cases u with
  | nil => exact absurd rfl hu
  | cons a as =>
    cases t with
    | nil => exact absurd rfl ht
    | cons b bs =>
      unfold injectBitbucket
      rw [if_pos (isPrefixOf_self_append httpsP rest)]
      simp only [List.isEmpty, Bool.not_false, Bool.and_self, if_true]
      rw [pyReplace_prepend httpsP _ rest (by decide),
          pyReplace_not_pyIn rest httpsP _ h]
      simp

/-- A URL that does not start with `https://` is returned unchanged by the
Bitbucket injector, whatever the credentials. -/
theorem injectBitbucket_not_https (user token u : List Char)
    (h : httpsP.isPrefixOf u = false) :
    injectBitbucket user token u = u := by
  simp [injectBitbucket, h]

/-- With no principal the Bitbucket injector is the identity. -/
theorem injectBitbucket_no_user (t u : List Char) : injectBitbucket [] t u = u := by
  unfold injectBitbucket
  split
  · simp [List.isEmpty]
  · rfl

/-- With no secret the Bitbucket injector is the identity. -/
theorem injectBitbucket_no_token (s u : List Char) : injectBitbucket s [] u = u := by
  unfold injectBitbucket
  split
  · simp [List.isEmpty]
  · rfl

/-- Result of invoking the external `git` executable once:
exit code 0, non-zero exit (Python `CalledProcessError`), or the
executable cannot be located (Python `FileNotFoundError`). -/
inductive OpResult
  | ok
  | err
  | missing
deriving DecidableEq

/-- Outcomes the world assigns to each of the four `git` invocations a
single repository may trigger. -/
structure GitEnv where
  configGet : OpResult
  setUrl : OpResult
  fetch : OpResult
  clone : OpResult
deriving DecidableEq

/-- On-disk state of one mirror: is `<name>.git` present, and if so which
remote URL `git config --get remote.origin.url` reports. -/
structure MirrorState where
  present : Bool
  storedUrl : List Char
deriving DecidableEq

/-- The `git` commands a reconciliation step issues, in order. -/
inductive GitCmd
  | configGet
  | setUrl (url : List Char)
  | fetch
  | clone (url : List Char)
deriving DecidableEq

/-- The exception (if any) escaping the per-repository `git` operations,
to be routed by the scripts' `except` clauses. -/
inductive RaiseResult
  | normal
  | calledProcess
  | fileNotFound
deriving DecidableEq

/-- Observable effect of reconciling one repository: the `git` commands
issued (in order), the exception escaping to the loop's handlers, and the
resulting on-disk state. -/
structure StepResult where
  trace : List GitCmd
  exc : RaiseResult
  state : MirrorState
deriving DecidableEq

/-- One loop iteration of `mirror_repos` in `sync_github_repo.py`
(lines 95–148, body of the `try`): inject the token into the clone URL;
if the mirror exists and a token is given, read the stored remote URL and
rewrite it only when the token does not occur in it as a substring
(line 113), then fetch; if the mirror is absent, mirror-clone.  A
successful `set-url`/`clone` stores the injected URL. -/
def stepGh (token : List Char) (env : GitEnv) (st : MirrorState)
    (cloneUrl : List Char) : StepResult :=
  let desired := injectGithub token cloneUrl
  if st.present then
    if token.isEmpty then
      match env.fetch with
      | OpResult.missing => ⟨[GitCmd.fetch], RaiseResult.fileNotFound, st⟩
      | OpResult.err => ⟨[GitCmd.fetch], RaiseResult.calledProcess, st⟩
      | OpResult.ok => ⟨[GitCmd.fetch], RaiseResult.normal, st⟩
    else
      match env.configGet with
      | OpResult.missing => ⟨[GitCmd.configGet], RaiseResult.fileNotFound, st⟩
      | OpResult.err => ⟨[GitCmd.configGet], RaiseResult.calledProcess, st⟩
      | OpResult.ok =>
        if pyIn token st.storedUrl then
          match env.fetch with
          | OpResult.missing =>
            ⟨[GitCmd.configGet, GitCmd.fetch], RaiseResult.fileNotFound, st⟩
          | OpResult.err =>
            ⟨[GitCmd.configGet, GitCmd.fetch], RaiseResult.calledProcess, st⟩
          | OpResult.ok =>
            ⟨[GitCmd.configGet, GitCmd.fetch], RaiseResult.normal, st⟩
        else
          match env.setUrl with
          | OpResult.missing =>
            ⟨[GitCmd.configGet, GitCmd.setUrl desired], RaiseResult.fileNotFound, st⟩
          | OpResult.err =>
            ⟨[GitCmd.configGet, GitCmd.setUrl desired], RaiseResult.calledProcess, st⟩
          | OpResult.ok =>
            match env.fetch with
            | OpResult.missing =>
              ⟨[GitCmd.configGet, GitCmd.setUrl desired, GitCmd.fetch],
                RaiseResult.fileNotFound, ⟨true, desired⟩⟩
            | OpResult.err =>
              ⟨[GitCmd.configGet, GitCmd.setUrl desired, GitCmd.fetch],
                RaiseResult.calledProcess, ⟨true, desired⟩⟩
            | OpResult.ok =>
              ⟨[GitCmd.configGet, GitCmd.setUrl desired, GitCmd.fetch],
                RaiseResult.normal, ⟨true, desired⟩⟩
  else
    match env.clone with
    | OpResult.missing => ⟨[GitCmd.clone desired], RaiseResult.fileNotFound, st⟩
    | OpResult.err => ⟨[GitCmd.clone desired], RaiseResult.calledProcess, st⟩
    | OpResult.ok => ⟨[GitCmd.clone desired], RaiseResult.normal, ⟨true, desired⟩⟩

/-- Run the fetch step after the (possibly failed) remote-URL check of the
Bitbucket script, appending to the trace so far. -/
def fetchAfter (env : GitEnv) (st : MirrorState) (tr : List GitCmd) : StepResult :=
  match env.fetch with
  | OpResult.missing => ⟨tr ++ [GitCmd.fetch], RaiseResult.fileNotFound, st⟩
  | OpResult.err => ⟨tr ++ [GitCmd.fetch], RaiseResult.calledProcess, st⟩
  | OpResult.ok => ⟨tr ++ [GitCmd.fetch], RaiseResult.normal, st⟩

/-- One loop iteration of `mirror_repos` in `sync_bitbucket_repo.py`
(lines 125–192): inject the credentials; if the mirror exists, read the
stored remote URL and rewrite it when it literally differs from the
injected URL (line 149); a non-zero exit of either of those two commands
is caught by the inner handler (line 157) as a warning and the fetch is
attempted anyway; a `FileNotFoundError` escapes the inner handler.  If the
mirror is absent, mirror-clone. -/
def stepBb (user token : List Char) (env : GitEnv) (st : MirrorState)
    (cloneUrl : List Char) : StepResult :=
  let desired := injectBitbucket user token cloneUrl
  if st.present then
    match env.configGet with
    | OpResult.missing => ⟨[GitCmd.configGet], RaiseResult.fileNotFound, st⟩
    | OpResult.err => fetchAfter env st [GitCmd.configGet]
    | OpResult.ok =>
      if st.storedUrl = desired then
        fetchAfter env st [GitCmd.configGet]
      else
        match env.setUrl with
        | OpResult.missing =>
          ⟨[GitCmd.configGet, GitCmd.setUrl desired], RaiseResult.fileNotFound, st⟩
        | OpResult.err =>
          fetchAfter env st [GitCmd.configGet, GitCmd.setUrl desired]
        | OpResult.ok =>
          fetchAfter env ⟨true, desired⟩ [GitCmd.configGet, GitCmd.setUrl desired]
  else
    match env.clone with
    | OpResult.missing => ⟨[GitCmd.clone desired], RaiseResult.fileNotFound, st⟩
    | OpResult.err => ⟨[GitCmd.clone desired], RaiseResult.calledProcess, st⟩
    | OpResult.ok => ⟨[GitCmd.clone desired], RaiseResult.normal, ⟨true, desired⟩⟩

/-- How the batch loop ended: the `for` loop finished; the GitHub script's
`break` on a missing `git` executable (line 148); `sys.exit(code)` in the
Bitbucket script; or an exception escaping the loop (no modelled path
produces this — every modelled exception is handled). -/
inductive BatchEnd
  | completed
  | brokeToolMissing
  | exited (code : Nat)
  | raised
deriving DecidableEq

/-- The observable result of a `mirror_repos` run: one report per
repository actually processed, in order, plus how the loop ended. -/
structure BatchResult where
  reports : List (List Char × StepResult)
  ending : BatchEnd
deriving DecidableEq

/-- One catalog entry together with its slice of the world: the mirror
state on disk and the results of the `git` operations it may invoke. -/
structure RepoSpec where
  name : List Char
  cloneUrl : List Char
  st : MirrorState
  env : GitEnv
deriving DecidableEq

/-- The repository loop of `mirror_repos` in `sync_github_repo.py`
(lines 95–148): `CalledProcessError` prints an error and continues with
the next repository; `FileNotFoundError` prints an error and `break`s.
Directory creation (lines 92–93) is modelled as succeeding. -/
def mirrorReposGh (token : List Char) : List RepoSpec → BatchResult
  | [] => ⟨[], BatchEnd.completed⟩
  | r :: rest =>
    let s := stepGh token r.env r.st r.cloneUrl
    if s.exc = RaiseResult.fileNotFound then
      ⟨[(r.name, s)], BatchEnd.brokeToolMissing⟩
    else
      let b := mirrorReposGh token rest
      ⟨(r.name, s) :: b.reports, b.ending⟩

/-- The repository loop of `mirror_repos` in `sync_bitbucket_repo.py`
(lines 125–192): `FileNotFoundError` calls `sys.exit(1)` (line 185);
`CalledProcessError` prints an error and continues.  Directory creation
(lines 118–123) is modelled as succeeding. -/
def mirrorReposBb (user token : List Char) : List RepoSpec → BatchResult
  | [] => ⟨[], BatchEnd.completed⟩
  | r :: rest =>
    let s := stepBb user token r.env r.st r.cloneUrl
    if s.exc = RaiseResult.fileNotFound then
      ⟨[(r.name, s)], BatchEnd.exited 1⟩
    else
      let b := mirrorReposBb user token rest
      ⟨(r.name, s) :: b.reports, b.ending⟩

/-- What one GitHub API page request yields: a JSON list of repositories
(name, clone_url), an HTTP error status, or a network failure. -/
inductive GhPage
  | page (entries : List (List Char × List Char))
  | httpErr
  | netErr
deriving DecidableEq

/-- `repo_dict[name] = url`: a Python dict update — an existing key keeps
its position and gets the new value, a new key is appended. -/
def dictUpsert (d : List (List Char × List Char)) (k v : List Char) :
    List (List Char × List Char) :=
  if d.any (fun p => p.1 == k) then
    d.map (fun p => if p.1 == k then (k, v) else p)
  else d ++ [(k, v)]

/-- Insert a page of entries into the dict, in order. -/
def dictInsertAll (d : List (List Char × List Char))
    (entries : List (List Char × List Char)) : List (List Char × List Char) :=
  entries.foldl (fun acc e => dictUpsert acc e.1 e.2) d

/-- `list_repos` of `sync_github_repo.py` (lines 56–77): pages are
requested in order; an empty page breaks the loop; an `HTTPError` or any
other request exception prints a message and breaks, RETURNING THE
PARTIAL DICT collected so far.  An exhausted page stream is modelled as
an empty page. -/
def listReposGh : List GhPage → List (List Char × List Char) →
    List (List Char × List Char)
  | [], acc => acc
  | GhPage.page [] :: _, acc => acc
  | GhPage.page (e :: es) :: rest, acc => listReposGh rest (dictInsertAll acc (e :: es))
  | GhPage.httpErr :: _, acc => acc
  | GhPage.netErr :: _, acc => acc

/-- What one Bitbucket API page request yields: a list of repositories,
each with the clone URL of the requested flavour when the repository has
one, plus whether a `next` page link is present; or an HTTP / network
error. -/
inductive BbPage
  | page (entries : List (List Char × Option (List Char))) (hasNext : Bool)
  | httpErr
  | netErr
deriving DecidableEq

/-- `list_bitbucket_repos` of `sync_bitbucket_repo.py` (lines 59–99):
pages are followed through `next` links; an entry without the requested
clone flavour is warned about and skipped; any `HTTPError` or request
exception returns `None`, DISCARDING everything collected so far.  An
exhausted page stream is modelled as a page without a `next` link. -/
def listReposBb : List BbPage → List (List Char × List Char) →
    Option (List (List Char × List Char))
  | [], acc => some acc
  | BbPage.page entries hasNext :: rest, acc =>
    let acc' := entries.foldl
      (fun d e => match e.2 with
        | some u => dictUpsert d e.1 u
        | none => d) acc
    if hasNext then listReposBb rest acc' else some acc'
  | BbPage.httpErr :: _, _ => none
  | BbPage.netErr :: _, _ => none

/-- Exit code of the process together with the batch result, when the
mirroring loop ran at all. -/
structure RunResult where
  exitCode : Nat
  batch : Option BatchResult
deriving DecidableEq

/-- The `__main__` block of `sync_github_repo.py` (lines 151–215), after
argument parsing: list the repositories, and mirror them when the dict is
non-empty.  The script contains no `sys.exit` call at all, so the process
exit status is 0 on every modelled path. -/
def mainGh (pages : List GhPage) (world : List Char → MirrorState × GitEnv)
    (token : List Char) : RunResult :=
  let repos := listReposGh pages []
  ⟨0,
    if repos.isEmpty then none
    else some (mirrorReposGh token
      (repos.map (fun p => ⟨p.1, p.2, (world p.1).1, (world p.1).2⟩)))⟩

/-- `main` of `sync_bitbucket_repo.py` (lines 195–273): a `None` from the
listing exits with code 1 (lines 258–259); an empty dict returns (exit 0);
otherwise the mirroring loop runs, and a `sys.exit` inside it becomes the
process exit status; if the loop completes, `main` returns and the
process exits 0. -/
def mainBb (pages : List BbPage) (world : List Char → MirrorState × GitEnv)
    (user token : List Char) : RunResult :=
  match listReposBb pages [] with
  | none => ⟨1, none⟩
  | some repos =>
    if repos.isEmpty then ⟨0, none⟩
    else
      let b := mirrorReposBb user token
        (repos.map (fun p => ⟨p.1, p.2, (world p.1).1, (world p.1).2⟩))
      match b.ending with
      | BatchEnd.exited c => ⟨c, some b⟩
      | _ => ⟨0, some b⟩

/-- All four `git` operations succeed. -/
def allOk : GitEnv := ⟨OpResult.ok, OpResult.ok, OpResult.ok, OpResult.ok⟩

/-- A world where no `git` invocation reports the executable as missing. -/
def noMissing (e : GitEnv) : Prop :=
  e.configGet ≠ OpResult.missing ∧ e.setUrl ≠ OpResult.missing ∧
    e.fetch ≠ OpResult.missing ∧ e.clone ≠ OpResult.missing

instance : DecidablePred noMissing := fun e => by
  unfold noMissing
  infer_instance

/-- When no operation reports the executable missing, a GitHub step never
raises `FileNotFoundError`. -/
theorem stepGh_no_fnf (token : List Char) (env : GitEnv) (st : MirrorState)
    (u : List Char) (h : noMissing env) :
    (stepGh token env st u).exc ≠ RaiseResult.fileNotFound := by
  obtain ⟨cg, su, f, cl⟩ := env
  obtain ⟨h1, h2, h3, h4⟩ := h
  obtain ⟨p, stored⟩ := st
  unfold stepGh
  cases p <;> by_cases ht : token.isEmpty <;> by_cases hin : pyIn token stored <;>
    cases cg <;> cases su <;> cases f <;> cases cl <;>
      simp_all

/-- When no operation reports the executable missing, a Bitbucket step
never raises `FileNotFoundError`. -/
theorem stepBb_no_fnf (user token : List Char) (env : GitEnv) (st : MirrorState)
    (u : List Char) (h : noMissing env) :
    (stepBb user token env st u).exc ≠ RaiseResult.fileNotFound := by
  obtain ⟨cg, su, f, cl⟩ := env
  obtain ⟨h1, h2, h3, h4⟩ := h
  obtain ⟨p, stored⟩ := st
  unfold stepBb fetchAfter
  cases p <;> by_cases heq : stored = injectBitbucket user token u <;>
    cases cg <;> cases su <;> cases f <;> cases cl <;>
      simp_all

/-- When every repository's `git` operations can at least be invoked, the
GitHub loop runs to completion and reports every repository in catalog
order. -/
theorem mirrorReposGh_all (token : List Char) :
    ∀ specs : List RepoSpec, (∀ r ∈ specs, noMissing r.env) →
      (mirrorReposGh token specs).ending = BatchEnd.completed ∧
      (mirrorReposGh token specs).reports.map Prod.fst = specs.map RepoSpec.name := by
  intro specs
  induction specs with
  | nil => intro _; exact ⟨rfl, rfl⟩
  | cons r rest ih =>
    intro h
    have hr := h r (List.mem_cons_self r rest)
    have hrest := ih fun x hx => h x (List.mem_cons_of_mem r hx)
    have hexc := stepGh_no_fnf token r.env r.st r.cloneUrl hr
    unfold mirrorReposGh
    rw [if_neg hexc]
    simp [hrest.1, hrest.2]

/-- When every repository's `git` operations can at least be invoked, the
Bitbucket loop runs to completion and reports every repository in catalog
order. -/
theorem mirrorReposBb_all (user token : List Char) :
    ∀ specs : List RepoSpec, (∀ r ∈ specs, noMissing r.env) →
      (mirrorReposBb user token specs).ending = BatchEnd.completed ∧
      (mirrorReposBb user token specs).reports.map Prod.fst = specs.map RepoSpec.name := by
  intro specs
  induction specs with
  | nil => intro _; exact ⟨rfl, rfl⟩
  | cons r rest ih =>
    intro h
    have hr := h r (List.mem_cons_self r rest)
    have hrest := ih fun x hx => h x (List.mem_cons_of_mem r hx)
    have hexc := stepBb_no_fnf user token r.env r.st r.cloneUrl hr
    unfold mirrorReposBb
    rw [if_neg hexc]
    simp [hrest.1, hrest.2]

/-- The GitHub loop either finishes the catalog or breaks out on a missing
executable; in particular no exception escapes it. -/
theorem mirrorReposGh_ending (token : List Char) (specs : List RepoSpec) :
    (mirrorReposGh token specs).ending = BatchEnd.completed ∨
    (mirrorReposGh token specs).ending = BatchEnd.brokeToolMissing := by
  induction specs with
  | nil => exact Or.inl rfl
  | cons r rest ih =>
    unfold mirrorReposGh
    by_cases hexc : (stepGh token r.env r.st r.cloneUrl).exc = RaiseResult.fileNotFound
    · rw [if_pos hexc]; exact Or.inr rfl
    · rw [if_neg hexc]; simpa using ih

/-- The Bitbucket loop either finishes the catalog or exits the process
with code 1 on a missing executable; in particular no exception escapes
it. -/
theorem mirrorReposBb_ending (user token : List Char) (specs : List RepoSpec) :
    (mirrorReposBb user token specs).ending = BatchEnd.completed ∨
    (mirrorReposBb user token specs).ending = BatchEnd.exited 1 := by
  induction specs with
  | nil => exact Or.inl rfl
  | cons r rest ih =>
    unfold mirrorReposBb
    by_cases hexc : (stepBb user token r.env r.st r.cloneUrl).exc = RaiseResult.fileNotFound
    · rw [if_pos hexc]; exact Or.inr rfl
    · rw [if_neg hexc]; simpa using ih

/-- C1 counterexample: injecting the same token twice into an HTTPS URL
changes the URL again — `inject(inject(u, c), c) ≠ inject(u, c)` at
`u = "https://host/r.git"`, `c = "tok"` (the second injection yields
`https://tok@tok@host/r.git`). -/
theorem inject_not_idempotent_cex :
    injectGithub "tok".toList (injectGithub "tok".toList "https://host/r.git".toList)
      ≠ injectGithub "tok".toList "https://host/r.git".toList := by
  decide

/-- C1 (amended): credential injection is implemented as a substring
replacement of `https://` by `https://<creds>@`, so it is NOT idempotent:
re-injecting into an already-injected HTTPS URL prepends the credential
prefix a second time, in both scripts. -/
theorem inject_double_prepends (t u rest : List Char) (ht : t ≠ []) (hu : u ≠ [])
    (h1 : pyIn httpsP rest = false)
    (h2 : pyIn httpsP (t ++ ('@' :: rest)) = false)
    (h3 : pyIn httpsP (u ++ (':' :: (t ++ ('@' :: rest)))) = false) :
    injectGithub t (injectGithub t (httpsP ++ rest))
      = httpsP ++ (t ++ ('@' :: (t ++ ('@' :: rest))))
    ∧ injectGithub t (injectGithub t (httpsP ++ rest))
      ≠ injectGithub t (httpsP ++ rest)
    ∧ injectBitbucket u t (injectBitbucket u t (httpsP ++ rest))
      = httpsP ++ (u ++ (':' :: (t ++ ('@' :: (u ++ (':' :: (t ++ ('@' :: rest))))))))
    ∧ injectBitbucket u t (injectBitbucket u t (httpsP ++ rest))
      ≠ injectBitbucket u t (httpsP ++ rest) := by
  have g1 := injectGithub_https t rest ht h1
  have g2 := injectGithub_https t (t ++ ('@' :: rest)) ht h2
  have b1 := injectBitbucket_https u t rest hu ht h1
  have b2 := injectBitbucket_https u t (u ++ (':' :: (t ++ ('@' :: rest)))) hu ht h3
  refine ⟨by rw [g1, g2], ?_, by rw [b1, b2], ?_⟩
  · rw [g1, g2]
    intro hEq
    have hlen := congrArg List.length hEq
    simp only [List.length_append, List.length_cons] at hlen
    omega
  · rw [b1, b2]
    intro hEq
    have hlen := congrArg List.length hEq
    simp only [List.length_append, List.length_cons] at hlen
    omega

/-- C1 witness: the double-prepend theorem instantiated at
`c = "tok"`, principal `"u"`, URL `https://host/r.git`. -/
theorem inject_double_prepends_witness :
    "tok".toList ≠ ([] : List Char)
    ∧ pyIn httpsP "host/r.git".toList = false
    ∧ (injectGithub "tok".toList (injectGithub "tok".toList (httpsP ++ "host/r.git".toList))
        = httpsP ++ ("tok".toList ++ ('@' :: ("tok".toList ++ ('@' :: "host/r.git".toList))))
      ∧ injectGithub "tok".toList (injectGithub "tok".toList (httpsP ++ "host/r.git".toList))
        ≠ injectGithub "tok".toList (httpsP ++ "host/r.git".toList)
      ∧ injectBitbucket "u".toList "tok".toList
          (injectBitbucket "u".toList "tok".toList (httpsP ++ "host/r.git".toList))
        = httpsP ++ ("u".toList ++ (':' :: ("tok".toList ++ ('@' ::
            ("u".toList ++ (':' :: ("tok".toList ++ ('@' :: "host/r.git".toList))))))))
      ∧ injectBitbucket "u".toList "tok".toList
          (injectBitbucket "u".toList "tok".toList (httpsP ++ "host/r.git".toList))
        ≠ injectBitbucket "u".toList "tok".toList (httpsP ++ "host/r.git".toList)) :=
  ⟨by decide, by decide,
   inject_double_prepends "tok".toList "u".toList "host/r.git".toList
     (by decide) (by decide) (by decide) (by decide) (by decide)⟩

/-- C8 counterexample: in the Bitbucket script a secret alone (no
principal) injects nothing — the URL comes back unchanged, not rewritten
to carry `secret@`. -/
theorem bitbucket_secret_only_cex :
    injectBitbucket [] "tok".toList "https://host/r.git".toList
      = "https://host/r.git".toList
    ∧ injectBitbucket [] "tok".toList "https://host/r.git".toList
      ≠ "https://tok@host/r.git".toList := by
  decide

/-- C8 (amended): the GitHub injector takes only a secret and rewrites the
authority to `secret@`; with no secret it returns the URL unchanged.  The
Bitbucket injector requires BOTH principal and secret: with a secret alone
(or nothing) it returns the URL unchanged. -/
theorem secret_only_injection (t rest u : List Char) (ht : t ≠ [])
    (h : pyIn httpsP rest = false) :
    injectGithub t (httpsP ++ rest) = httpsP ++ (t ++ ('@' :: rest))
    ∧ injectGithub [] u = u
    ∧ injectBitbucket [] t u = u
    ∧ injectBitbucket [] [] u = u :=
  ⟨injectGithub_https t rest ht h, injectGithub_no_token u,
   injectBitbucket_no_user t u, injectBitbucket_no_user [] u⟩

/-- C8 witness: the amended claim instantiated at secret `"tok"`,
URL `https://host/r.git`, and a second URL `ssh://git@host/r.git`. -/
theorem secret_only_injection_witness :
    "tok".toList ≠ ([] : List Char)
    ∧ pyIn httpsP "host/r.git".toList = false
    ∧ (injectGithub "tok".toList (httpsP ++ "host/r.git".toList)
        = httpsP ++ ("tok".toList ++ ('@' :: "host/r.git".toList))
      ∧ injectGithub [] "ssh://git@host/r.git".toList = "ssh://git@host/r.git".toList
      ∧ injectBitbucket [] "tok".toList "ssh://git@host/r.git".toList
        = "ssh://git@host/r.git".toList
      ∧ injectBitbucket [] [] "ssh://git@host/r.git".toList
        = "ssh://git@host/r.git".toList) :=
  ⟨by decide, by decide,
   secret_only_injection "tok".toList "host/r.git".toList "ssh://git@host/r.git".toList
     (by decide) (by decide)⟩

/-- C9 counterexample: the GitHub injector replaces EVERY occurrence of
the substring `https://`, so a URL that does not use the HTTPS scheme but
contains `https://` later in its text is modified. -/
theorem github_non_https_modified_cex :
    httpsP.isPrefixOf "ssh://host/a/https://b".toList = false
    ∧ injectGithub "tok".toList "ssh://host/a/https://b".toList
      ≠ "ssh://host/a/https://b".toList := by
  decide

/-- C9 (amended): the Bitbucket injector returns every URL that does not
start with `https://` unchanged, for all credentials; the GitHub injector
returns a URL unchanged only when `https://` does not occur anywhere in
it (which covers ordinary SSH URLs such as `ssh://git@host/r.git`). -/
theorem non_https_passthrough (user token t u v : List Char)
    (hu : httpsP.isPrefixOf u = false) (hv : pyIn httpsP v = false) :
    injectBitbucket user token u = u ∧ injectGithub t v = v :=
  ⟨injectBitbucket_not_https user token u hu, injectGithub_not_contains t v hv⟩

/-- C9 witness: SSH pass-through at `ssh://git@host/r.git` with non-empty
credentials in both scripts. -/
theorem non_https_passthrough_witness :
    httpsP.isPrefixOf "ssh://git@host/r.git".toList = false
    ∧ pyIn httpsP "ssh://git@host/r.git".toList = false
    ∧ (injectBitbucket "u".toList "tok".toList "ssh://git@host/r.git".toList
        = "ssh://git@host/r.git".toList
      ∧ injectGithub "tok".toList "ssh://git@host/r.git".toList
        = "ssh://git@host/r.git".toList) :=
  ⟨by decide, by decide,
   non_https_passthrough "u".toList "tok".toList "tok".toList
     "ssh://git@host/r.git".toList "ssh://git@host/r.git".toList
     (by decide) (by decide)⟩

/-- C2 counterexample: in the GitHub script a stored remote URL that
differs from the freshly computed desired URL but happens to contain the
token is NOT rewritten — the step issues no `set-url` and leaves the
stored URL unchanged, although the two strings differ literally. -/
theorem github_differing_url_not_rewritten_cex :
    (stepGh "tok".toList allOk ⟨true, "https://tok@oldhost/r.git".toList⟩
        "https://host/r.git".toList).trace = [GitCmd.configGet, GitCmd.fetch]
    ∧ (stepGh "tok".toList allOk ⟨true, "https://tok@oldhost/r.git".toList⟩
        "https://host/r.git".toList).state.storedUrl
      = "https://tok@oldhost/r.git".toList
    ∧ "https://tok@oldhost/r.git".toList
      ≠ injectGithub "tok".toList "https://host/r.git".toList := by
  decide

/-- C2 (amended): the Bitbucket reconciler rewrites the stored remote URL
exactly when it differs literally from the desired URL, and a successful
rewrite stores the desired URL exactly; the GitHub reconciler instead
rewrites exactly when the token does not occur in the stored URL as a
substring. -/
theorem remote_url_update_policy (user token ght cloneUrl stored : List Char)
    (su f : OpResult) (hght : ght ≠ []) :
    (GitCmd.setUrl (injectBitbucket user token cloneUrl) ∈
        (stepBb user token ⟨OpResult.ok, su, f, OpResult.ok⟩
          ⟨true, stored⟩ cloneUrl).trace
      ↔ stored ≠ injectBitbucket user token cloneUrl)
    ∧ (su = OpResult.ok → stored ≠ injectBitbucket user token cloneUrl →
        (stepBb user token ⟨OpResult.ok, su, f, OpResult.ok⟩
          ⟨true, stored⟩ cloneUrl).state.storedUrl
          = injectBitbucket user token cloneUrl)
    ∧ (GitCmd.setUrl (injectGithub ght cloneUrl) ∈
        (stepGh ght ⟨OpResult.ok, su, f, OpResult.ok⟩
          ⟨true, stored⟩ cloneUrl).trace
      ↔ pyIn ght stored = false)
    ∧ (su = OpResult.ok → pyIn ght stored = false →
        (stepGh ght ⟨OpResult.ok, su, f, OpResult.ok⟩
          ⟨true, stored⟩ cloneUrl).state.storedUrl
          = injectGithub ght cloneUrl) := by
  cases ght with
  | nil => exact absurd rfl hght
  | cons b bs =>
    refine ⟨?_, ?_, ?_, ?_⟩ <;>
      cases su <;> cases f <;>
        by_cases heq : stored = injectBitbucket user token cloneUrl <;>
          cases hin : pyIn (b :: bs) stored <;>
            simp_all [stepBb, stepGh, fetchAfter, List.isEmpty]

/-- C2 witness: the update-condition theorem instantiated at a present
mirror whose stored URL `https://x` differs from the desired URL. -/
theorem remote_url_update_policy_witness :
    "tok".toList ≠ ([] : List Char)
    ∧ (GitCmd.setUrl (injectBitbucket "u".toList "t".toList "https://host/r.git".toList) ∈
        (stepBb "u".toList "t".toList ⟨OpResult.ok, OpResult.ok, OpResult.ok, OpResult.ok⟩
          ⟨true, "https://x".toList⟩ "https://host/r.git".toList).trace
      ↔ "https://x".toList
          ≠ injectBitbucket "u".toList "t".toList "https://host/r.git".toList) :=
  ⟨by decide,
   (remote_url_update_policy "u".toList "t".toList "tok".toList
      "https://host/r.git".toList "https://x".toList OpResult.ok OpResult.ok
      (by decide)).1⟩

/-- C6 counterexample: in the GitHub script a failed `git remote set-url`
raises `CalledProcessError` into the loop-level handler, so the fetch is
never attempted — the step's trace ends at the `set-url` command. -/
theorem github_fetch_skipped_cex :
    (stepGh "tok".toList ⟨OpResult.ok, OpResult.err, OpResult.ok, OpResult.ok⟩
        ⟨true, "https://host/r.git".toList⟩ "https://host/r.git".toList).trace
      = [GitCmd.configGet, GitCmd.setUrl "https://tok@host/r.git".toList] := by
  decide

/-- C6 (amended): when rewriting the stored remote URL fails with a
non-zero exit, the Bitbucket reconciler reports a warning and still
attempts the fetch with the stored URL unchanged; the GitHub reconciler
aborts the repository instead — the fetch is not attempted and the
failure is handled as a per-repository error. -/
theorem remote_update_failure_policy (user token ght stored cloneUrl : List Char)
    (f cl : OpResult) (hght : ght ≠ [])
    (hbb : stored ≠ injectBitbucket user token cloneUrl)
    (hgh : pyIn ght stored = false) :
    GitCmd.fetch ∈ (stepBb user token ⟨OpResult.ok, OpResult.err, f, cl⟩
        ⟨true, stored⟩ cloneUrl).trace
    ∧ (stepBb user token ⟨OpResult.ok, OpResult.err, f, cl⟩
        ⟨true, stored⟩ cloneUrl).state.storedUrl = stored
    ∧ GitCmd.fetch ∉ (stepGh ght ⟨OpResult.ok, OpResult.err, f, cl⟩
        ⟨true, stored⟩ cloneUrl).trace
    ∧ (stepGh ght ⟨OpResult.ok, OpResult.err, f, cl⟩
        ⟨true, stored⟩ cloneUrl).exc = RaiseResult.calledProcess := by
  cases ght with
  | nil => exact absurd rfl hght
  | cons b bs =>
    cases f <;> simp_all [stepBb, stepGh, fetchAfter, List.isEmpty]

/-- C6 witness: the remote-update-failure theorem instantiated at a
present mirror with stored URL `https://x` and desired URL
`https://u:t@host/r.git` (Bitbucket) resp. `https://tok@host/r.git`
(GitHub). -/
theorem remote_update_failure_policy_witness :
    "tok".toList ≠ ([] : List Char)
    ∧ "https://x".toList ≠ injectBitbucket "u".toList "t".toList "https://host/r.git".toList
    ∧ pyIn "tok".toList "https://x".toList = false
    ∧ (GitCmd.fetch ∈ (stepBb "u".toList "t".toList
          ⟨OpResult.ok, OpResult.err, OpResult.ok, OpResult.ok⟩
          ⟨true, "https://x".toList⟩ "https://host/r.git".toList).trace
      ∧ (stepBb "u".toList "t".toList
          ⟨OpResult.ok, OpResult.err, OpResult.ok, OpResult.ok⟩
          ⟨true, "https://x".toList⟩ "https://host/r.git".toList).state.storedUrl
        = "https://x".toList
      ∧ GitCmd.fetch ∉ (stepGh "tok".toList
          ⟨OpResult.ok, OpResult.err, OpResult.ok, OpResult.ok⟩
          ⟨true, "https://x".toList⟩ "https://host/r.git".toList).trace
      ∧ (stepGh "tok".toList
          ⟨OpResult.ok, OpResult.err, OpResult.ok, OpResult.ok⟩
          ⟨true, "https://x".toList⟩ "https://host/r.git".toList).exc
        = RaiseResult.calledProcess) :=
  ⟨by decide, by decide, by decide,
   remote_update_failure_policy "u".toList "t".toList "tok".toList
     "https://x".toList "https://host/r.git".toList OpResult.ok OpResult.ok
     (by decide) (by decide) (by decide)⟩

/-- C10 (confirmed): in the GitHub script, with no token supplied, a
present mirror is neither read nor rewritten — the step issues exactly one
`git fetch` and leaves the mirror state (in particular the stored remote
URL) untouched, whatever the catalog URL and however the fetch ends. -/
theorem github_no_token_frame (env : GitEnv) (stored cloneUrl : List Char) :
    (stepGh [] env ⟨true, stored⟩ cloneUrl).trace = [GitCmd.fetch]
    ∧ (stepGh [] env ⟨true, stored⟩ cloneUrl).state = ⟨true, stored⟩ := by
  cases hf : env.fetch <;> simp [stepGh, hf, List.isEmpty]

/-- A catalog entry whose mirror is absent and whose `git clone`
invocation finds no `git` executable. -/
def specGitGone : RepoSpec :=
  ⟨"r1".toList, "https://h/r1.git".toList, ⟨false, []⟩,
   ⟨OpResult.ok, OpResult.ok, OpResult.ok, OpResult.missing⟩⟩

/-- A catalog entry whose mirror is absent and whose operations succeed. -/
def specR2 : RepoSpec :=
  ⟨"r2".toList, "https://h/r2.git".toList, ⟨false, []⟩, allOk⟩

/-- Another all-succeeding absent-mirror catalog entry. -/
def specR3 : RepoSpec :=
  ⟨"r3".toList, "https://h/r3.git".toList, ⟨false, []⟩, allOk⟩

/-- A catalog entry whose mirror is present and whose fetch exits
non-zero; the executable itself is found every time. -/
def specFetchFails : RepoSpec :=
  ⟨"r1".toList, "https://h/r1.git".toList, ⟨true, "https://h/r1.git".toList⟩,
   ⟨OpResult.ok, OpResult.ok, OpResult.err, OpResult.ok⟩⟩

/-- C3 counterexample: with `git` missing at repository 1 of 3, both
loops stop — but the remaining repositories are NOT marked
`Skipped(tool_missing)`: they simply never appear in the output (the
GitHub loop breaks, the Bitbucket loop exits the process with code 1). -/
theorem toolMissing_no_skip_markers_cex :
    (mirrorReposGh "tok".toList [specGitGone, specR2, specR3]).reports.map Prod.fst
      = ["r1".toList]
    ∧ (mirrorReposGh "tok".toList [specGitGone, specR2, specR3]).ending
      = BatchEnd.brokeToolMissing
    ∧ (mirrorReposBb "u".toList "tok".toList [specGitGone, specR2, specR3]).reports.map Prod.fst
      = ["r1".toList]
    ∧ (mirrorReposBb "u".toList "tok".toList [specGitGone, specR2, specR3]).ending
      = BatchEnd.exited 1 := by
  decide

/-- C3 (amended): when the `git` executable cannot be found while
processing a repository, both batch runners stop immediately — the
repositories after it are not attempted and receive no outcome at all
(no `Skipped(tool_missing)` marker exists): the GitHub loop breaks out
and returns, the Bitbucket loop exits the process with code 1. -/
theorem toolMissing_short_circuit (user token : List Char) (r : RepoSpec)
    (rest : List RepoSpec)
    (hg : (stepGh token r.env r.st r.cloneUrl).exc = RaiseResult.fileNotFound)
    (hb : (stepBb user token r.env r.st r.cloneUrl).exc = RaiseResult.fileNotFound) :
    mirrorReposGh token (r :: rest)
      = ⟨[(r.name, stepGh token r.env r.st r.cloneUrl)], BatchEnd.brokeToolMissing⟩
    ∧ mirrorReposBb user token (r :: rest)
      = ⟨[(r.name, stepBb user token r.env r.st r.cloneUrl)], BatchEnd.exited 1⟩ := by
  constructor
  · simp [mirrorReposGh, hg]
  · simp [mirrorReposBb, hb]

/-- C3 witness: the short-circuit theorem instantiated at a concrete
two-repository catalog whose first entry hits the missing executable. -/
theorem toolMissing_short_circuit_witness :
    (stepGh "tok".toList specGitGone.env specGitGone.st specGitGone.cloneUrl).exc
      = RaiseResult.fileNotFound
    ∧ (mirrorReposGh "tok".toList [specGitGone, specR2]
        = ⟨[(specGitGone.name,
             stepGh "tok".toList specGitGone.env specGitGone.st specGitGone.cloneUrl)],
           BatchEnd.brokeToolMissing⟩
      ∧ mirrorReposBb "u".toList "tok".toList [specGitGone, specR2]
        = ⟨[(specGitGone.name,
             stepBb "u".toList "tok".toList specGitGone.env specGitGone.st
               specGitGone.cloneUrl)],
           BatchEnd.exited 1⟩) :=
  ⟨by decide,
   toolMissing_short_circuit "u".toList "tok".toList specGitGone [specR2]
     (by decide) (by decide)⟩

/-- C4 (confirmed): every modelled per-repository failure other than the
missing executable is caught — both loops continue with the next
repository in order and report every catalog entry — and no exception
ever escapes either loop (the ending is never `raised`); the batch result
is the loops' only output. -/
theorem per_repo_failure_isolation :
    (∀ token specs, (mirrorReposGh token specs).ending ≠ BatchEnd.raised)
    ∧ (∀ user token specs, (mirrorReposBb user token specs).ending ≠ BatchEnd.raised)
    ∧ (∀ token specs, (∀ r ∈ specs, noMissing r.env) →
        (mirrorReposGh token specs).ending = BatchEnd.completed ∧
        (mirrorReposGh token specs).reports.map Prod.fst = specs.map RepoSpec.name)
    ∧ (∀ user token specs, (∀ r ∈ specs, noMissing r.env) →
        (mirrorReposBb user token specs).ending = BatchEnd.completed ∧
        (mirrorReposBb user token specs).reports.map Prod.fst
          = specs.map RepoSpec.name) := by
  refine ⟨?_, ?_, ?_, ?_⟩
  · intro token specs
    rcases mirrorReposGh_ending token specs with h | h <;> simp [h]
  · intro user token specs
    rcases mirrorReposBb_ending user token specs with h | h <;> simp [h]
  · exact fun token specs h => mirrorReposGh_all token specs h
  · exact fun user token specs h => mirrorReposBb_all user token specs h

/-- C4 witness: a two-repository catalog whose first fetch exits non-zero
(executable always found) is still processed to completion, both entries
reported in order, in both scripts. -/
theorem per_repo_failure_isolation_witness :
    (∀ r ∈ [specFetchFails, specR2], noMissing r.env)
    ∧ ((mirrorReposGh [] [specFetchFails, specR2]).ending = BatchEnd.completed
      ∧ (mirrorReposGh [] [specFetchFails, specR2]).reports.map Prod.fst
        = [specFetchFails, specR2].map RepoSpec.name)
    ∧ ((mirrorReposBb [] [] [specFetchFails, specR2]).ending = BatchEnd.completed
      ∧ (mirrorReposBb [] [] [specFetchFails, specR2]).reports.map Prod.fst
        = [specFetchFails, specR2].map RepoSpec.name) :=
  ⟨by decide,
   per_repo_failure_isolation.2.2.1 [] [specFetchFails, specR2] (by decide),
   per_repo_failure_isolation.2.2.2 [] [] [specFetchFails, specR2] (by decide)⟩

/-- C5 counterexample: a Bitbucket run whose single repository fails its
fetch still exits 0 (the failure is visible in the batch report), and a
GitHub run whose listing fails with an HTTP error also exits 0. -/
theorem repo_failure_exit_zero_cex :
    (mainBb [BbPage.page [("r1".toList, some "https://h/r1.git".toList)] false]
        (fun _ => (⟨true, "https://h/r1.git".toList⟩,
          ⟨OpResult.ok, OpResult.ok, OpResult.err, OpResult.ok⟩)) [] []).exitCode = 0
    ∧ (mainBb [BbPage.page [("r1".toList, some "https://h/r1.git".toList)] false]
        (fun _ => (⟨true, "https://h/r1.git".toList⟩,
          ⟨OpResult.ok, OpResult.ok, OpResult.err, OpResult.ok⟩)) [] []).batch
      = some ⟨[("r1".toList,
          ⟨[GitCmd.configGet, GitCmd.fetch], RaiseResult.calledProcess,
           ⟨true, "https://h/r1.git".toList⟩⟩)], BatchEnd.completed⟩
    ∧ (mainGh [GhPage.httpErr] (fun _ => (⟨false, []⟩, allOk)) "tok".toList).exitCode
      = 0 := by
  decide

/-- C5 (amended): the GitHub script never calls `sys.exit`, so its exit
status is 0 on every modelled path, even with failed repositories or a
failed listing; the Bitbucket script exits 1 when the listing fails, and
exits 0 whenever the loop completes — per-repository failures never make
the exit status non-zero. -/
theorem exit_code_policy :
    (∀ pages world token, (mainGh pages world token).exitCode = 0)
    ∧ (∀ pages world user token, listReposBb pages [] = none →
        mainBb pages world user token = ⟨1, none⟩)
    ∧ (∀ pages world user token repos, listReposBb pages [] = some repos →
        (∀ p ∈ repos, noMissing (world p.1).2) →
        (mainBb pages world user token).exitCode = 0) := by
  refine ⟨?_, ?_, ?_⟩
  · intro pages world token; rfl
  · intro pages world user token h
    unfold mainBb; rw [h]
  · intro pages world user token repos h hm
    unfold mainBb; rw [h]
    dsimp only
    by_cases he : repos.isEmpty
    · rw [if_pos he]
    · rw [if_neg he]
      have hall : ∀ r ∈ repos.map
          (fun p => RepoSpec.mk p.1 p.2 (world p.1).1 (world p.1).2),
          noMissing r.env := by
        intro r hr
        obtain ⟨p, hp, rfl⟩ := List.mem_map.mp hr
        exact hm p hp
      have hend := (mirrorReposBb_all user token _ hall).1
      simp [hend]

/-- C5 witness: the exit-code theorem instantiated at a failing listing
(exit 1), and at a completed run with one fetch failure (exit 0). -/
theorem exit_code_policy_witness :
    listReposBb [BbPage.httpErr] [] = none
    ∧ mainBb [BbPage.httpErr] (fun _ => (⟨false, []⟩, allOk)) "u".toList "t".toList
      = ⟨1, none⟩
    ∧ (mainGh [] (fun _ => (⟨false, []⟩, allOk)) "t".toList).exitCode = 0
    ∧ (mainBb [BbPage.page [("r1".toList, some "https://h/r1.git".toList)] false]
        (fun _ => (⟨true, "https://h/r1.git".toList⟩,
          ⟨OpResult.ok, OpResult.ok, OpResult.err, OpResult.ok⟩)) [] []).exitCode
      = 0 :=
  ⟨by rfl,
   exit_code_policy.2.1 [BbPage.httpErr] (fun _ => (⟨false, []⟩, allOk))
     "u".toList "t".toList (by rfl),
   exit_code_policy.1 [] (fun _ => (⟨false, []⟩, allOk)) "t".toList,
   exit_code_policy.2.2 [BbPage.page [("r1".toList, some "https://h/r1.git".toList)] false]
     (fun _ => (⟨true, "https://h/r1.git".toList⟩,
       ⟨OpResult.ok, OpResult.ok, OpResult.err, OpResult.ok⟩)) [] []
     [("r1".toList, "https://h/r1.git".toList)] (by rfl) (by decide)⟩

/-- C7 counterexample: in the GitHub script a listing error on page 2
returns the partial catalog from page 1, and that partial catalog IS
mirrored — the repository is cloned although the listing failed. -/
theorem github_partial_catalog_mirrored_cex :
    (mainGh [GhPage.page [("r1".toList, "https://h/r1.git".toList)], GhPage.httpErr]
        (fun _ => (⟨false, []⟩, allOk)) []).batch
      = some ⟨[("r1".toList,
          ⟨[GitCmd.clone "https://h/r1.git".toList], RaiseResult.normal,
           ⟨true, "https://h/r1.git".toList⟩⟩)], BatchEnd.completed⟩ := by
  decide

/-- C7 (amended): a Bitbucket listing error aborts the whole run — exit
code 1 and no mirroring at all; a GitHub listing error only stops the
listing loop, returning the partial catalog collected so far, and that
partial catalog is then mirrored. -/
theorem listing_error_abort_policy :
    (∀ pages world user token, listReposBb pages [] = none →
        mainBb pages world user token = ⟨1, none⟩)
    ∧ (∀ tail acc, listReposGh (GhPage.httpErr :: tail) acc = acc)
    ∧ (∀ name url tail world token,
        mainGh (GhPage.page [(name, url)] :: GhPage.httpErr :: tail) world token
          = ⟨0, some (mirrorReposGh token
              [⟨name, url, (world name).1, (world name).2⟩])⟩) := by
  refine ⟨?_, ?_, ?_⟩
  · intro pages world user token h
    unfold mainBb; rw [h]
  · intro tail acc; rfl
  · intro name url tail world token
    unfold mainGh
    simp [listReposGh, dictInsertAll, dictUpsert]

/-- C7 witness: the abort-policy theorem instantiated at a network error
on the first Bitbucket page. -/
theorem listing_error_abort_policy_witness :
    listReposBb [BbPage.netErr] [] = none
    ∧ mainBb [BbPage.netErr] (fun _ => (⟨false, []⟩, allOk)) "u".toList "t".toList
      = ⟨1, none⟩ :=
  ⟨by rfl,
   listing_error_abort_policy.1 [BbPage.netErr] (fun _ => (⟨false, []⟩, allOk))
     "u".toList "t".toList (by rfl)⟩
